import Mathlib

/-!
Verification development for the p5control data server core: the HDF5 append
store (`p5control/data/hdf5.py`, class `HDF5FileInterface`) and the callback
dispatcher (`p5control/data/callbacks.py`, class `CallbackController`).

The Python code is shallowly embedded: dictionaries become association lists
(key order = insertion order, keys unique as in a Python dict), numpy scalars
and lists become the inductive `PyVal`, the h5py file becomes an explicit
`FileState`, and fallible Python code returns `Except PyErr`.  Operations that
mutate state and can raise return the resulting state next to the outcome, so
partial mutation before an exception is observable.
-/

namespace P5

/-- Python / numpy exceptions that the modelled code can raise. -/
inductive PyErr where
  | keyError
  | valueError
  | typeError
  | indexError
  | nameError
  | ctrlError
deriving DecidableEq, Repr

/-- Field element types as inferred by `_convert_to_array.get_type`:
`float` and `int` are the Python scalar types (numpy `float64` / `int64`),
`dStr` is `np.dtype(str)` as inferred from a Python string - the zero-width
unicode dtype, so a value stored into such a field is truncated to the empty
string - and `dObj` is the numpy object dtype (what `np.dtype(list)` yields
for a plain Python list). -/
inductive DType where
  | dFloat
  | dInt
  | dStr
  | dObj
deriving DecidableEq, Repr

/-- Python scalar values.  Floats carry a rational: the code never computes
with them, it only stores and forwards them. -/
inductive PyScalar where
  | sFloat (q : Rat)
  | sInt (n : Int)
  | sStr (s : String)
deriving DecidableEq, Repr

/-- Python values that can appear as values of a dict payload or as attribute
values: a scalar, or a list of scalars (list elements are kept flat, which is
the shape the code's callers produce). -/
inductive PyVal where
  | scalar (s : PyScalar)
  | vList (xs : List PyScalar)
deriving DecidableEq, Repr

/-- A Python float value. -/
def PyVal.vFloat (q : Rat) : PyVal := .scalar (.sFloat q)

/-- A Python int value. -/
def PyVal.vInt (n : Int) : PyVal := .scalar (.sInt n)

/-- A Python string value. -/
def PyVal.vStr (s : String) : PyVal := .scalar (.sStr s)

/-- Python `type(x)` as used by `get_type`'s fallback branch. -/
def pyType : PyVal → DType
  | .scalar (.sFloat _) => .dFloat
  | .scalar (.sInt _) => .dInt
  | .scalar (.sStr _) => .dStr
  | .vList _ => .dObj

/-- The classification test `type(val) == list` in `_convert_to_array`. -/
def isList : PyVal → Bool
  | .vList _ => true
  | _ => false

/-- Whether a value is a Python number (float or int): the values that are
neither subscriptable (`x[0]` raises `TypeError`) nor iterable, unlike
lists and strings. -/
def isNumScalar : PyVal → Bool
  | .scalar (.sFloat _) => true
  | .scalar (.sInt _) => true
  | _ => false

/-- Whether a Python value can be stored into a numpy field of the given
dtype without a `ValueError` (the cast performed inside `np.fromiter`):
numeric fields accept both Python numbers (numpy casts silently, truncating
a float written into an int field), the inferred string field accepts
strings, and an object field accepts anything. -/
def castable : DType → PyVal → Bool
  | .dFloat, .scalar (.sFloat _) => true
  | .dFloat, .scalar (.sInt _) => true
  | .dInt, .scalar (.sInt _) => true
  | .dInt, .scalar (.sFloat _) => true
  | .dStr, .scalar (.sStr _) => true
  | .dObj, _ => true
  | _, _ => false

/-- The stored value after the numpy cast: an `int` widens to `float64`, a
`float` written into an int field is truncated toward zero, and any string
stored into the zero-width `np.dtype(str)` field is silently truncated to
the empty string. -/
def castVal : DType → PyVal → PyVal
  | .dFloat, .scalar (.sInt n) => .vFloat (n : Rat)
  | .dInt, .scalar (.sFloat q) => .vInt (q.num / q.den)
  | .dStr, _ => .vStr ""
  | _, v => v

/-- A numpy structured (compound) array: named field dtypes plus rows, one
`PyVal` per field per row. -/
structure StructArr where
  fields : List (String × DType)
  rows : List (List PyVal)
deriving DecidableEq, Repr

/-- The result of `_convert_to_array`: either a plain homogeneous ndarray
(only its dtype and shape matter to the store; `n` is the length of the
first axis, `rowShape` the remaining axes) or a structured array. -/
inductive NpData where
  | plain (dt : DType) (n : Nat) (rowShape : List Nat)
  | structA (sa : StructArr)
deriving DecidableEq, Repr

/-- A dataset's dtype (`dset.dtype`), passed back into `_convert_to_array`
on the extend path. -/
inductive DtypeSpec where
  | scalar (dt : DType)
  | compound (fs : List (String × DType))
deriving DecidableEq, Repr

/-- The `arr` argument of `HDF5FileInterface.append`: a numpy array or a
Python dict (association list in insertion order, keys unique). -/
inductive Payload where
  | arr (dt : DType) (n : Nat) (rowShape : List Nat)
  | dict (fields : List (String × PyVal))
deriving DecidableEq, Repr

/-- Python `len(arr)` for a payload: first-axis length of an array, number of keys
of a dict. -/
def pyLen : Payload → Nat
  | .arr _ n _ => n
  | .dict fs => fs.length

instance {ε α : Type} [DecidableEq ε] [DecidableEq α] : DecidableEq (Except ε α) :=
  fun a b =>
    match a, b with
    | .error e, .error f => decidable_of_iff (e = f) (by simp)
    | .ok x, .ok y => decidable_of_iff (x = y) (by simp)
    | .error _, .ok _ => isFalse (by simp)
    | .ok _, .error _ => isFalse (by simp)

/-- Monadic map over `Except`, written out so proofs can unfold it directly. -/
def exMapM {α β : Type} (f : α → Except PyErr β) : List α → Except PyErr (List β)
  | [] => .ok []
  | a :: t =>
    match f a with
    | .error e => .error e
    | .ok b =>
      match exMapM f t with
      | .error e => .error e
      | .ok bs => .ok (b :: bs)

/-- Subscripting `x[0]` on a Python value: first element of a list, first
character of a string (a one-character string), `IndexError` when the list
or string is empty, `TypeError` when the value is a number (numbers are not
subscriptable). -/
def pyHead : PyVal → Except PyErr PyVal
  | .vList (x :: _) => .ok (.scalar x)
  | .vList [] => .error .indexError
  | .scalar (.sStr s) =>
    match s.data with
    | c :: _ => .ok (.vStr ⟨[c]⟩)
    | [] => .error .indexError
  | .scalar _ => .error .typeError

/-- The iterability requirement `zip` puts on each column: a list yields its
elements, a string yields its characters (each a one-character string), and
a number raises `TypeError` (numbers are not iterable). -/
def asList : PyVal → Except PyErr (List PyVal)
  | .vList xs => .ok (xs.map PyVal.scalar)
  | .scalar (.sStr s) => .ok (s.data.map (fun c => PyVal.vStr ⟨[c]⟩))
  | .scalar _ => .error .typeError

/-- Dtype inference of the scalar branch:
`np.dtype([get_type(k, arr[k]) for k in arr.keys()])`. -/
def inferScalar (fs : List (String × PyVal)) : List (String × DType) :=
  fs.map (fun kv => (kv.1, pyType kv.2))

/-- Dtype inference of the list branch:
`np.dtype([get_type(k, arr[k][0]) for k in arr.keys()])`; subscripting a
non-list raises `TypeError`, an empty list `IndexError`. -/
def inferList (fs : List (String × PyVal)) : Except PyErr (List (String × DType)) :=
  exMapM (fun kv => (pyHead kv.2).map (fun h => (kv.1, pyType h))) fs

/-- The lookups `[arr[k] for k in ks]`: dict lookups, `KeyError` on a missing key. -/
def dictVals (fs : List (String × PyVal)) (ks : List String) : Except PyErr (List PyVal) :=
  exMapM (fun k =>
    match List.lookup k fs with
    | some v => .ok v
    | none => .error .keyError) ks

/-- How far `zip(*cols)` goes: it stops at the shortest column. -/
def minLenAux : List (List PyVal) → Nat
  | [] => 0
  | [c] => c.length
  | c :: rest => min c.length (minLenAux rest)

/-- The rows produced by `zip(*cols)`: the transpose, truncated to the
shortest column. -/
def zipMin (cols : List (List PyVal)) : List (List PyVal) :=
  (List.range (minLenAux cols)).map (fun i => cols.map (fun c => c.getD i (.vInt 0)))

/-- Casting one row into the compound dtype inside `np.fromiter`; a value
that does not fit its field raises `ValueError`. -/
def castRow (dt : List (String × DType)) (vals : List PyVal) : Except PyErr (List PyVal) :=
  exMapM (fun p => if castable p.1.2 p.2 then .ok (castVal p.1.2 p.2) else .error .valueError)
    (dt.zip vals)

/-- The dtype used by `_convert_to_array` for a dict payload: the one passed
in, or the inferred one (list branch or scalar branch by the classification
flag).  A non-compound dtype has `dtype.names = None`, over which the later
`zip` comprehension raises `TypeError`. -/
def inferDtype (fs : List (String × PyVal)) (isL : Bool) (odt : Option DtypeSpec) :
    Except PyErr (List (String × DType)) :=
  match odt with
  | none => if isL then inferList fs else .ok (inferScalar fs)
  | some (.compound fs') => .ok fs'
  | some (.scalar _) => .error .typeError

/-- The `np.fromiter(zip(...), dtype)` step of `_convert_to_array`: the list
branch looks the columns up by `dtype.names` (`KeyError` on a missing key),
requires each to be iterable (`TypeError` otherwise) and zips them,
truncating to the shortest; the scalar branch builds a single row.  Each
element is cast to its field dtype (`ValueError` when it does not fit). -/
def buildRows (fs : List (String × PyVal)) (isL : Bool)
    (dt : List (String × DType)) : Except PyErr NpData :=
  if isL then
    match dictVals fs (dt.map (·.1)) with
    | .error e => .error e
    | .ok cols =>
      match exMapM asList cols with
      | .error e => .error e
      | .ok colsL =>
        match exMapM (castRow dt) (zipMin colsL) with
        | .error e => .error e
        | .ok rows => .ok (.structA ⟨dt, rows⟩)
  else
    match dictVals fs (dt.map (·.1)) with
    | .error e => .error e
    | .ok vals =>
      match castRow dt vals with
      | .error e => .error e
      | .ok row => .ok (.structA ⟨dt, [row]⟩)

/-- Model of `HDF5FileInterface._convert_to_array(arr, dtype)`.

An ndarray is returned unchanged (the dtype argument is ignored for it, as in
the source).  A dict is classified by the type of its first value
(`for val in arr.values(): val_type = type(val); break`); on an empty dict the
later use of the unbound `val_type` raises `NameError`.  Otherwise the dtype
is resolved (`inferDtype`) and the rows are built (`buildRows`). -/
def convertToArray (p : Payload) (odt : Option DtypeSpec) : Except PyErr NpData :=
  match p with
  | .arr dt n rs => .ok (.plain dt n rs)
  | .dict fs =>
    match fs with
    | [] => .error .nameError
    | (_, v0) :: _ =>
      match inferDtype fs (isList v0) odt with
      | .error e => .error e
      | .ok dt => buildRows fs (isList v0) dt

/-- A node of the hdf5 file that `append` can reach: a plain (homogeneous)
dataset, of which only dtype, row shape and first-axis length matter, or a
compound dataset with its rows.  `attrs` is the node's attribute map. -/
inductive Node where
  | plainD (dt : DType) (rowShape : List Nat) (len : Nat) (attrs : List (String × PyVal))
  | compD (fields : List (String × DType)) (rows : List (List PyVal))
      (attrs : List (String × PyVal))
deriving DecidableEq, Repr

/-- The dtype `dset.dtype` of a dataset node. -/
def nodeDtype : Node → DtypeSpec
  | .plainD dt _ _ _ => .scalar dt
  | .compD fs _ _ => .compound fs

/-- Whether h5py can cast a source element dtype into the dataset's element
dtype on assignment (numeric dtypes cast freely into each other). -/
def dtypeCastOk : DType → DType → Bool
  | .dFloat, .dFloat => true
  | .dFloat, .dInt => true
  | .dInt, .dFloat => true
  | .dInt, .dInt => true
  | .dStr, .dStr => true
  | .dObj, .dObj => true
  | _, _ => false

/-- The state of an open `HDF5FileInterface`: the file's datasets by path,
whether a callback queue was handed to the interface, and the value
`time.ctime()` returns while the call runs (used for `created_on`). -/
structure FileState where
  nodes : List (String × Node)
  hasQueue : Bool
  now : String
deriving DecidableEq, Repr

/-- Path resolution `self._f[path]` (`None` plays the raised `KeyError`). -/
def lookupNode (st : FileState) (path : String) : Option Node :=
  (st.nodes.find? (·.1 == path)).map (·.2)

/-- Replace the node stored at `path`. -/
def updateNode (nodes : List (String × Node)) (path : String) (n : Node) :
    List (String × Node) :=
  nodes.map (fun kv => if kv.1 == path then (kv.1, n) else kv)

/-- Attribute assignment `dset.attrs[key] = value`: replace the value when the key exists,
otherwise add the key. -/
def setAttr (attrs : List (String × PyVal)) (k : String) (v : PyVal) :
    List (String × PyVal) :=
  if attrs.any (·.1 == k) then
    attrs.map (fun kv => if kv.1 == k then (kv.1, v) else kv)
  else
    attrs ++ [(k, v)]

/-- The `for (key, value) in kwargs.items()` attribute loop of `append`. -/
def setAttrsN (attrs : List (String × PyVal)) (kwargs : List (String × PyVal)) :
    List (String × PyVal) :=
  kwargs.foldl (fun a kv => setAttr a kv.1 kv.2) attrs

/-- Apply the attribute loop to a node. -/
def nodeSetAttrs : Node → List (String × PyVal) → Node
  | .plainD dt rs len a, kw => .plainD dt rs len (setAttrsN a kw)
  | .compD fs rows a, kw => .compD fs rows (setAttrsN a kw)

/-- A `(path, data, is_group)` tuple put on the callback queue. -/
structure Event where
  path : String
  data : Option NpData
  isGroup : Bool
deriving DecidableEq, Repr

/-- The h5py fill value for a freshly resized row of a compound dataset. -/
def defaultVal : DType → PyVal
  | .dFloat => .vFloat 0
  | .dInt => .vInt 0
  | .dStr => .vStr ""
  | .dObj => .vInt 0

/-- Fill rows created by `resize` before anything is assigned to them. -/
def padRows (fs : List (String × DType)) (n : Nat) : List (List PyVal) :=
  List.replicate n (fs.map (fun kd => defaultVal kd.2))

/-- The node built by `_create_dataset(path, arr)`: the dataset holds `arr`
with the first axis made extendable, and its `created_on` attribute is set to
`time.ctime()`. -/
def mkNode (nd : NpData) (now : String) : Node :=
  match nd with
  | .plain dt n rs => .plainD dt rs n [("created_on", .vStr now)]
  | .structA sa => .compD sa.fields sa.rows [("created_on", .vStr now)]

/-- Outcome of one `append` call: the raised-or-returned result, the file
state after the call (mutations before an exception stay), and the events
put on the callback queue, in order. -/
structure AppendOut where
  res : Except PyErr Unit
  st : FileState
  events : List Event
deriving DecidableEq, Repr

/-- Model of `HDF5FileInterface.append(path, arr, **kwargs)`.

Empty data returns at once.  Otherwise, when no dataset exists at `path`, the
payload is converted with inferred dtype and `_create_dataset` builds the
node, stamps `created_on`, and puts `(path, None, True)` on the callback
queue.  When a dataset exists, the payload is converted against `dset.dtype`,
the dataset is resized along axis 0 and the new rows are assigned; h5py
raises on an incompatible assignment only after the resize, so the grown
length remains.  On success the attribute loop runs and `(path, arr, False)`
is put on the queue (also after a creation, so a creation puts two events). -/
def append (st : FileState) (path : String) (p : Payload)
    (kwargs : List (String × PyVal)) : AppendOut :=
  if pyLen p == 0 then ⟨.ok (), st, []⟩
  else
    match lookupNode st path with
    | none =>
      match convertToArray p none with
      | .error e => ⟨.error e, st, []⟩
      | .ok nd =>
        let evs0 : List Event := if st.hasQueue then [⟨path, none, true⟩] else []
        let node := nodeSetAttrs (mkNode nd st.now) kwargs
        ⟨.ok (), { st with nodes := st.nodes ++ [(path, node)] },
          evs0 ++ (if st.hasQueue then [⟨path, some nd, false⟩] else [])⟩
    | some node =>
      match convertToArray p (some (nodeDtype node)) with
      | .error e => ⟨.error e, st, []⟩
      | .ok nd =>
        match node, nd with
        | .plainD dt rs len attrs, .plain pdt pn prs =>
          if prs == rs && dtypeCastOk pdt dt then
            let node := nodeSetAttrs (.plainD dt rs (len + pn) attrs) kwargs
            ⟨.ok (), { st with nodes := updateNode st.nodes path node },
              if st.hasQueue then [⟨path, some nd, false⟩] else []⟩
          else
            ⟨.error .typeError,
              { st with nodes := updateNode st.nodes path (.plainD dt rs (len + pn) attrs) },
              []⟩
        | .compD fs rows attrs, .structA sa =>
          let node := nodeSetAttrs (.compD fs (rows ++ sa.rows) attrs) kwargs
          ⟨.ok (), { st with nodes := updateNode st.nodes path node },
            if st.hasQueue then [⟨path, some nd, false⟩] else []⟩
        | .compD fs rows attrs, .plain _ pn _ =>
          ⟨.error .typeError,
            { st with nodes := updateNode st.nodes path (.compD fs (rows ++ padRows fs pn) attrs) },
            []⟩
        | .plainD _ _ _ _, .structA _ =>
          ⟨.error .typeError, st, []⟩

/-- What invoking a subscriber's delivery callback does.  The transport is
specified as reliable-or-erroring: a call either returns, fails with a
connection-lost error (`EOFError` or `TimeoutExpired`, the two exceptions
`_call_callback` catches), or raises some other exception. -/
inductive CBOutcome where
  | ok
  | connLost
  | otherErr
deriving DecidableEq, Repr

/-- Exceptions escaping a callback invocation. -/
inductive CBErr where
  | connLost
  | other
deriving DecidableEq, Repr

/-- Invoke a delivery callback. -/
def invokeCB : CBOutcome → Except CBErr Unit
  | .ok => .ok ()
  | .connLost => .error .connLost
  | .otherErr => .error .other

/-- An error escaping `_call_callback` or `stop`: either an uncaught
callback exception, or a Python error raised by the method body itself. -/
inductive CBRunErr where
  | uncaught
  | pyErr (e : PyErr)
deriving DecidableEq, Repr

/-- The state of a `CallbackController`: the two callback registries
(id to (path, callback), insertion-ordered, ids unique as in a Python dict),
whether the callback thread is running, and whether `STOP_EVENT` is set. -/
structure CBState where
  dsetCallbacks : List (String × (String × CBOutcome))
  grpCallbacks : List (String × (String × CBOutcome))
  threadRunning : Bool
  stopRequested : Bool
deriving DecidableEq, Repr

/-- Python `d.pop(k)` on a dict: remove the key, `KeyError` when it is absent. -/
def dictPop {β : Type} (d : List (String × β)) (k : String) :
    Except PyErr (List (String × β)) :=
  if d.any (·.1 == k) then .ok (d.filter (·.1 ≠ k)) else .error .keyError

/-- Model of `CallbackController.remove_callback(callid)`: pop the id from the dataset
registry when present, else from the group registry when present, else only
log; it never raises. -/
def removeCallback (st : CBState) (callid : String) : Except PyErr CBState :=
  if st.dsetCallbacks.any (·.1 == callid) then
    match dictPop st.dsetCallbacks callid with
    | .error e => .error e
    | .ok d => .ok { st with dsetCallbacks := d }
  else if st.grpCallbacks.any (·.1 == callid) then
    match dictPop st.grpCallbacks callid with
    | .error e => .error e
    | .ok d => .ok { st with grpCallbacks := d }
  else
    .ok st

/-- Python's `s.startswith(pre)`: the characters of `pre` are a prefix of
the characters of `s`. -/
def strStartsWith (s pre : String) : Bool :=
  pre.data.isPrefixOf s.data

/-- The snapshot taken under the group lock in `_call_callback`: the entries
whose subscribed path is a prefix of the notified path
(`path.startswith(callpath)`). -/
def grpMatching (st : CBState) (path : String) :
    List (String × (String × CBOutcome)) :=
  st.grpCallbacks.filter (fun kv => strStartsWith path kv.2.1)

/-- The snapshot taken under the dataset lock in `_call_callback`: the
entries whose subscribed path equals the notified path. -/
def dsetMatching (st : CBState) (path : String) :
    List (String × (String × CBOutcome)) :=
  st.dsetCallbacks.filter (fun kv => kv.2.1 == path)

/-- The group-branch delivery loop of `_call_callback`: invoke each snapshot
entry; on a connection-lost failure pop the id from the group registry
(`self._grp_callbacks.pop(callid)`) and continue; any other exception
escapes.  Returns the registry left behind and the ids invoked, in order. -/
def runGrpCalls (grp : List (String × (String × CBOutcome))) :
    List (String × CBOutcome) →
    Except CBRunErr (List (String × (String × CBOutcome)) × List String)
  | [] => .ok (grp, [])
  | (i, f) :: rest =>
    match invokeCB f with
    | .ok _ =>
      match runGrpCalls grp rest with
      | .error e => .error e
      | .ok (g, inv) => .ok (g, i :: inv)
    | .error .connLost =>
      match dictPop grp i with
      | .error e => .error (.pyErr e)
      | .ok g1 =>
        match runGrpCalls g1 rest with
        | .error e => .error e
        | .ok (g, inv) => .ok (g, i :: inv)
    | .error .other => .error .uncaught

/-- The dataset-branch delivery loop of `_call_callback`: invoke each
snapshot entry; on a connection-lost failure call
`self.remove_callback(callid)` and continue; any other exception escapes. -/
def runDsetCalls (st : CBState) :
    List (String × CBOutcome) → Except CBRunErr (CBState × List String)
  | [] => .ok (st, [])
  | (i, f) :: rest =>
    match invokeCB f with
    | .ok _ =>
      match runDsetCalls st rest with
      | .error e => .error e
      | .ok (s, inv) => .ok (s, i :: inv)
    | .error .connLost =>
      match removeCallback st i with
      | .error e => .error (.pyErr e)
      | .ok s1 =>
        match runDsetCalls s1 rest with
        | .error e => .error e
        | .ok (s, inv) => .ok (s, i :: inv)
    | .error .other => .error .uncaught

/-- Model of `CallbackController._call_callback(path, data, is_group)`: snapshot the
matching subscriptions of the selected kind under their lock, then run the
delivery loop without the lock.  The `data` argument is forwarded to dataset
callbacks; the modelled delivery outcome does not depend on it. -/
def callCallback (st : CBState) (path : String) (_data : Option NpData)
    (isGroup : Bool) : Except CBRunErr (CBState × List String) :=
  if isGroup then
    match runGrpCalls st.grpCallbacks
        ((grpMatching st path).map (fun kv => (kv.1, kv.2.2))) with
    | .error e => .error e
    | .ok (g, inv) => .ok ({ st with grpCallbacks := g }, inv)
  else
    runDsetCalls st ((dsetMatching st path).map (fun kv => (kv.1, kv.2.2)))

/-- The dataset-registry clearing loop of `stop`:
`for key in self._dset_callbacks.copy(): self._dset_callbacks.pop(key)`. -/
def clearViaPop {β : Type} (d : List (String × β)) : List (String × β) :=
  (d.map (·.1)).foldl (fun cur k => cur.filter (·.1 ≠ k)) d

/-- The group-registry clearing loop of `stop`:
`for key in self._grp_callbacks.copy(): self._grp_callbacks.pop()`.
`dict.pop()` needs at least one argument, so the first iteration raises
`TypeError` before touching the dict; with no registered group callback the
loop body never runs. -/
def grpClearLoop {β : Type} (d : List (String × β)) :
    Except PyErr (List (String × β)) :=
  match d with
  | [] => .ok d
  | _ :: _ => .error .typeError

/-- Outcome of `stop`: the raised-or-returned result and the controller
state after the call (mutations before an exception stay). -/
structure StopOut where
  res : Except PyErr Unit
  st : CBState
deriving DecidableEq, Repr

/-- Model of `CallbackController.stop()`: raise when the thread is not running; set
`STOP_EVENT`; clear the dataset registry key by key; run the group clearing
loop (which raises `TypeError` as soon as the registry is non-empty); then
join the loop thread, which clears the stop flag on exit, and drop the
thread handle. -/
def stop (st : CBState) : StopOut :=
  if !st.threadRunning then ⟨.error .ctrlError, st⟩
  else
    let st1 : CBState := { st with
      stopRequested := true
      dsetCallbacks := clearViaPop st.dsetCallbacks }
    match grpClearLoop st1.grpCallbacks with
    | .error e => ⟨.error e, st1⟩
    | .ok g =>
      ⟨.ok (), { st1 with grpCallbacks := g, threadRunning := false, stopRequested := false }⟩

/-- The length of a Python list value (`0` for a scalar). -/
def pyValLen : PyVal → Nat
  | .vList xs => xs.length
  | .scalar _ => 0

/-- The elements of a Python list value, as values. -/
def pyElems : PyVal → List PyVal
  | .vList xs => xs.map PyVal.scalar
  | .scalar _ => []

/-- The minimum of a list of lengths, with the same recursion shape as
`minLenAux`. -/
def minNatList : List Nat → Nat
  | [] => 0
  | [n] => n
  | n :: rest => min n (minNatList rest)

lemma exMapM_ok_of_all {α β : Type} (f : α → Except PyErr β) (g : α → β) :
    ∀ l : List α, (∀ a ∈ l, f a = .ok (g a)) → exMapM f l = .ok (l.map g)
  | [], _ => rfl
  | a :: t, h => by
    have ha := h a (List.mem_cons_self a t)
    have ht := exMapM_ok_of_all f g t (fun b hb => h b (List.mem_cons_of_mem a hb))
    simp [exMapM, ha, ht]

lemma exMapM_error_of_exists {α β : Type} (f : α → Except PyErr β) :
    ∀ l : List α, ∀ a ∈ l, (∀ b, f a ≠ .ok b) → ∃ e, exMapM f l = .error e := by
  intro l
  induction l with
  | nil => intro a ha; exact absurd ha (List.not_mem_nil a)
  | cons x t ih =>
    intro a ha he
    rcases List.mem_cons.mp ha with h | h
    · subst h
      match hx : f a with
      | .error e => exact ⟨e, by simp [exMapM, hx]⟩
      | .ok b => exact absurd hx (he b)
    · match hx : f x with
      | .error e => exact ⟨e, by simp [exMapM, hx]⟩
      | .ok b =>
        obtain ⟨e, ht⟩ := ih a h he
        exact ⟨e, by simp [exMapM, hx, ht]⟩

lemma exMapM_map {α γ β : Type} (f : γ → Except PyErr β) (h : α → γ) :
    ∀ l : List α, exMapM f (l.map h) = exMapM (fun a => f (h a)) l
  | [] => rfl
  | a :: t => by simp only [List.map_cons, exMapM, exMapM_map f h t]

lemma keyMem {β : Type} (d : List (String × β)) (k : String) :
    d.any (·.1 == k) = true ↔ k ∈ d.map (·.1) := by
  simp [List.any_eq_true, List.mem_map]

/-- Reduce an `if` once its `Bool` condition is known to be `true`. -/
lemma ite_bool_true {α : Type} {c : Bool} (h : c = true) (a b : α) :
    (if c = true then a else b) = a := by
  rw [h]; simp

/-- Reduce an `if` once its `Bool` condition is known to be `false`. -/
lemma ite_bool_false {α : Type} {c : Bool} (h : c = false) (a b : α) :
    (if c = true then a else b) = b := by
  rw [h]; simp

lemma lookup_self_of_nodup {β : Type} :
    ∀ l : List (String × β), (l.map (·.1)).Nodup →
      ∀ kv ∈ l, List.lookup kv.1 l = some kv.2 := by
  intro l
  induction l with
  | nil => intro _ kv hkv; exact absurd hkv (List.not_mem_nil kv)
  | cons x t ih =>
    intro hnd kv hkv
    rcases List.mem_cons.mp hkv with h | h
    · subst h; simp [List.lookup]
    · have hne : kv.1 ≠ x.1 := by
        intro he
        have : x.1 ∈ t.map (·.1) := he ▸ List.mem_map_of_mem (·.1) h
        exact (List.nodup_cons.mp hnd).1 this
      have := ih (List.nodup_cons.mp hnd).2 kv h
      simp [List.lookup, beq_false_of_ne hne, this]

lemma zip_map_same {α β γ : Type} (f : α → β) (g : α → γ) :
    ∀ l : List α, (l.map f).zip (l.map g) = l.map (fun a => (f a, g a))
  | [] => rfl
  | a :: t => by simp only [List.map_cons, List.zip_cons_cons, zip_map_same f g t]

lemma dictVals_self (fs : List (String × PyVal)) (hnd : (fs.map (·.1)).Nodup) :
    dictVals fs (fs.map (·.1)) = .ok (fs.map (·.2)) := by
  unfold dictVals
  rw [exMapM_map]
  refine exMapM_ok_of_all _ (·.2) fs ?_
  intro kv hkv
  rw [lookup_self_of_nodup fs hnd kv hkv]

lemma pyCast_self (v : PyVal) : castable (pyType v) v = true := by
  cases v with
  | scalar s => cases s <;> simp [pyType, castable]
  | vList xs => simp [pyType, castable]

lemma castRow_self (fs : List (String × PyVal)) :
    castRow (inferScalar fs) (fs.map (·.2)) =
      .ok (fs.map (fun kv => castVal (pyType kv.2) kv.2)) := by
  unfold castRow inferScalar
  rw [zip_map_same, exMapM_map]
  refine exMapM_ok_of_all _ (fun kv => castVal (pyType kv.2) kv.2) fs ?_
  intro kv _
  simp [pyCast_self kv.2]

/-- The scalar branch of `_convert_to_array` on a fresh path: when the first
value of a non-empty dict is not a list, the result is a single-row
structured array with each field's inferred type and the dict's values cast
to those types (a string value ends up truncated to the empty string by its
zero-width inferred dtype), in key order, whatever the types of the other
values are. -/
lemma convert_scalar_spec (k0 : String) (v0 : PyVal) (rest : List (String × PyVal))
    (hnd : (((k0, v0) :: rest).map (·.1)).Nodup) (hL : isList v0 = false) :
    convertToArray (.dict ((k0, v0) :: rest)) none =
      .ok (.structA ⟨inferScalar ((k0, v0) :: rest),
        [((k0, v0) :: rest).map (fun kv => castVal (pyType kv.2) kv.2)]⟩) := by
  have hkeys : (inferScalar ((k0, v0) :: rest)).map (·.1) =
      ((k0, v0) :: rest).map (·.1) := by
    simp [inferScalar]
  have hdv : dictVals ((k0, v0) :: rest) ((inferScalar ((k0, v0) :: rest)).map (·.1)) =
      .ok (((k0, v0) :: rest).map (·.2)) := by
    rw [hkeys]; exact dictVals_self _ hnd
  have hcr := castRow_self ((k0, v0) :: rest)
  simp only [convertToArray, inferDtype, buildRows, ite_bool_false hL, hdv, hcr]

lemma minLenAux_eq_minNat :
    ∀ cols : List (List PyVal), minLenAux cols = minNatList (cols.map List.length)
  | [] => rfl
  | [c] => rfl
  | c :: c2 :: rest => by
    simp only [minLenAux, List.map_cons, minNatList]
    rw [minLenAux_eq_minNat (c2 :: rest), List.map_cons]

lemma minNatList_le : ∀ l : List Nat, ∀ n ∈ l, minNatList l ≤ n := by
  intro l
  induction l with
  | nil => intro n hn; exact absurd hn (List.not_mem_nil n)
  | cons x t ih =>
    intro n hn
    rcases List.mem_cons.mp hn with h | h
    · subst h
      cases t with
      | nil => exact Nat.le_refl n
      | cons y s => exact Nat.min_le_left _ _
    · cases t with
      | nil => exact absurd h (List.not_mem_nil n)
      | cons y s =>
        exact Nat.le_trans (Nat.min_le_right _ _) (ih n h)

lemma zipMin_length (cols : List (List PyVal)) :
    (zipMin cols).length = minLenAux cols := by
  simp [zipMin]

lemma pyElems_float_len (qs : List Rat) :
    (pyElems (.vList (qs.map .sFloat))).length = qs.length := by
  simp [pyElems]

lemma pyElems_float_getD (qs : List Rat) (i : Nat) (h : i < qs.length) :
    (pyElems (.vList (qs.map .sFloat))).getD i (.vInt 0) = .vFloat (qs.getD i 0) := by
  have h2 : i < (pyElems (.vList (qs.map .sFloat))).length := by
    rw [pyElems_float_len]; exact h
  rw [List.getD_eq_getElem _ _ h2, List.getD_eq_getElem _ _ h]
  simp [pyElems, PyVal.vFloat]

/-- The list branch of `_convert_to_array` on a fresh path, for a dict of
non-empty float lists: no error is raised; the result has one `float64`
field per key and `zip` truncates the rows to the shortest list. -/
lemma convert_lists_ok (k0 : String) (v0 : PyVal) (rest : List (String × PyVal))
    (hnd : (((k0, v0) :: rest).map (·.1)).Nodup)
    (hfl : ∀ e ∈ (k0, v0) :: rest,
      ∃ qs : List Rat, qs ≠ [] ∧ e.2 = .vList (qs.map .sFloat)) :
    convertToArray (.dict ((k0, v0) :: rest)) none =
      .ok (.structA ⟨((k0, v0) :: rest).map (fun kv => (kv.1, .dFloat)),
        zipMin (((k0, v0) :: rest).map (fun kv => pyElems kv.2))⟩) := by
  obtain ⟨qs0, hqs0, hv0⟩ := hfl (k0, v0) (List.mem_cons_self _ _)
  have hv0' : v0 = PyVal.vList (qs0.map .sFloat) := hv0
  have hL : isList v0 = true := by rw [hv0']; rfl
  have hinf : inferList ((k0, v0) :: rest) =
      .ok (((k0, v0) :: rest).map (fun kv => (kv.1, DType.dFloat))) := by
    refine exMapM_ok_of_all _ _ _ ?_
    intro kv hkv
    obtain ⟨qs, hqs, hv⟩ := hfl kv hkv
    match qs, hqs with
    | q :: qs', _ =>
      rw [hv]
      simp [pyHead, Except.map, pyType]
  have hkeys : ((((k0, v0) :: rest).map (fun kv => (kv.1, DType.dFloat))).map (·.1)) =
      ((k0, v0) :: rest).map (·.1) := by
    simp
  have hdv : dictVals ((k0, v0) :: rest)
      ((((k0, v0) :: rest).map (fun kv => (kv.1, DType.dFloat))).map (·.1)) =
      .ok (((k0, v0) :: rest).map (·.2)) := by
    rw [hkeys]; exact dictVals_self _ hnd
  have hcols : exMapM asList (((k0, v0) :: rest).map (·.2)) =
      .ok (((k0, v0) :: rest).map (fun kv => pyElems kv.2)) := by
    rw [exMapM_map]
    refine exMapM_ok_of_all _ _ _ ?_
    intro kv hkv
    obtain ⟨qs, hqs, hv⟩ := hfl kv hkv
    rw [hv]
    simp [asList, pyElems]
  have hrows : exMapM (castRow (((k0, v0) :: rest).map (fun kv => (kv.1, DType.dFloat))))
      (zipMin (((k0, v0) :: rest).map (fun kv => pyElems kv.2))) =
      .ok (zipMin (((k0, v0) :: rest).map (fun kv => pyElems kv.2))) := by
    have hone : ∀ row ∈ zipMin (((k0, v0) :: rest).map (fun kv => pyElems kv.2)),
        castRow (((k0, v0) :: rest).map (fun kv => (kv.1, DType.dFloat))) row = .ok row := by
      intro row hrow
      simp only [zipMin, List.mem_map, List.mem_range] at hrow
      obtain ⟨i, hi, hrw⟩ := hrow
      subst hrw
      have hlt : ∀ kv ∈ (k0, v0) :: rest, i < (pyElems kv.2).length := by
        intro kv hkv
        rw [minLenAux_eq_minNat] at hi
        refine Nat.lt_of_lt_of_le hi (minNatList_le _ _ ?_)
        rw [List.map_map]
        exact List.mem_map_of_mem _ hkv
      unfold castRow
      rw [List.map_map, zip_map_same, exMapM_map]
      refine exMapM_ok_of_all _
        ((fun c : List PyVal => c.getD i (.vInt 0)) ∘
          (fun kv : String × PyVal => pyElems kv.2)) _ ?_
      intro kv hkv
      obtain ⟨qs, hqs, hv⟩ := hfl kv hkv
      have hlen : i < qs.length := by
        have := hlt kv hkv
        rw [hv, pyElems_float_len] at this
        exact this
      simp only [Function.comp, hv, pyElems_float_getD qs i hlen]
      simp [castable, castVal, PyVal.vFloat]
    have h2 := exMapM_ok_of_all
      (castRow (((k0, v0) :: rest).map (fun kv => (kv.1, DType.dFloat)))) id
      (zipMin (((k0, v0) :: rest).map (fun kv => pyElems kv.2)))
      (fun a ha => hone a ha)
    rwa [List.map_id] at h2
  simp only [convertToArray, inferDtype, buildRows, ite_bool_true hL, hinf, hdv, hcols, hrows]

lemma setAttr_keeps_key (a : List (String × PyVal)) (k k' : String) (v : PyVal)
    (h : a.any (·.1 == k) = true) : (setAttr a k' v).any (·.1 == k) = true := by
  unfold setAttr
  split
  · rw [List.any_map]
    have he : ((fun kv : String × PyVal => kv.1 == k) ∘
        (fun kv : String × PyVal => if kv.1 == k' then (kv.1, v) else kv)) =
        (fun kv : String × PyVal => kv.1 == k) := by
      funext kv
      by_cases hk : (kv.1 == k') = true
      · simp [Function.comp, hk]
      · simp [Function.comp, hk]
    rw [he]
    exact h
  · rw [List.any_append, h]
    rfl

lemma setAttrsN_keeps_key (kwargs : List (String × PyVal)) :
    ∀ a : List (String × PyVal), a.any (·.1 == k) = true →
      (setAttrsN a kwargs).any (·.1 == k) = true := by
  induction kwargs with
  | nil => intro a h; exact h
  | cons kw t ih =>
    intro a h
    exact ih (setAttr a kw.1 kw.2) (setAttr_keeps_key a k kw.1 kw.2 h)

lemma bool_not_true {c : Bool} (h : ¬ c = true) : c = false := by
  cases c
  · rfl
  · exact absurd rfl h

lemma pyElems_len (v : PyVal) : (pyElems v).length = pyValLen v := by
  cases v <;> simp [pyElems, pyValLen]

lemma find?_append_none {α : Type} (p : α → Bool) :
    ∀ l1 l2 : List α, l1.find? p = none → (l1 ++ l2).find? p = l2.find? p
  | [], _, _ => rfl
  | a :: t, l2, h => by
    cases hpa : p a with
    | true => simp [List.find?_cons, hpa] at h
    | false =>
      simp only [List.find?_cons, hpa, cond_false] at h
      simp only [List.cons_append, List.find?_cons, hpa, cond_false]
      exact find?_append_none p t l2 h

lemma lookupNode_append_self (st : FileState) (path : String) (n : Node)
    (h : lookupNode st path = none) :
    lookupNode { st with nodes := st.nodes ++ [(path, n)] } path = some n := by
  have h1 : st.nodes.find? (·.1 == path) = none := by
    cases hf : st.nodes.find? (·.1 == path) with
    | none => rfl
    | some kv => unfold lookupNode at h; rw [hf] at h; simp at h
  unfold lookupNode
  simp only []
  rw [find?_append_none _ _ _ h1]
  simp [List.find?_cons]

/-- Reduction of `append` on a fresh path with non-empty data: the converted
array becomes the new dataset, `created_on` is stamped, the kwargs are set,
and a group-creation event plus a dataset event are enqueued. -/
lemma append_fresh (st : FileState) (path : String) (p : Payload)
    (kwargs : List (String × PyVal)) (nd : NpData)
    (hlen : pyLen p ≠ 0) (hmiss : lookupNode st path = none)
    (hconv : convertToArray p none = .ok nd) :
    append st path p kwargs =
      ⟨.ok (), { st with nodes := st.nodes ++ [(path, nodeSetAttrs (mkNode nd st.now) kwargs)] },
        (if st.hasQueue then [⟨path, none, true⟩] else []) ++
          (if st.hasQueue then [⟨path, some nd, false⟩] else [])⟩ := by
  have hb : (pyLen p == 0) = false := by
    rw [beq_eq_false_iff_ne]; exact hlen
  simp only [append, ite_bool_false hb, hmiss, hconv]

/-- The ids whose delivery failed with a connection-lost error during one
`_call_callback` loop. -/
def failedIds (calls : List (String × CBOutcome)) : List String :=
  (calls.filter (fun c => c.2 == .connLost)).map (·.1)

lemma key_eq_of_nodup {β : Type} :
    ∀ l : List (String × β), (l.map (·.1)).Nodup →
      ∀ a ∈ l, ∀ b ∈ l, a.1 = b.1 → a = b := by
  intro l
  induction l with
  | nil => intro _ a ha; exact absurd ha (List.not_mem_nil a)
  | cons x t ih =>
    intro hnd a ha b hb he
    have hnd2 : (x.1 :: t.map (·.1)).Nodup := by
      simpa only [List.map_cons] using hnd
    have hnd' := List.nodup_cons.mp hnd2
    rcases List.mem_cons.mp ha with h1 | h1 <;> rcases List.mem_cons.mp hb with h2 | h2
    · rw [h1, h2]
    · exfalso
      apply hnd'.1
      have hx : x.1 = b.1 := by rw [← h1]; exact he
      rw [hx]
      exact List.mem_map_of_mem _ h2
    · exfalso
      apply hnd'.1
      have hx : x.1 = a.1 := by rw [← h2]; exact he.symm
      rw [hx]
      exact List.mem_map_of_mem _ h1
    · exact ih hnd'.2 a h1 b h2 he

lemma contains_iff_mem_str (l : List String) (s : String) :
    l.contains s = true ↔ s ∈ l :=
  List.elem_iff

lemma dictPop_present {β : Type} (d : List (String × β)) (i : String)
    (h : i ∈ d.map (·.1)) :
    dictPop d i = .ok (d.filter (·.1 ≠ i)) := by
  unfold dictPop
  rw [ite_bool_true ((keyMem d i).mpr h)]

lemma removeCallback_eq (st : CBState) (i : String) :
    removeCallback st i =
      if st.dsetCallbacks.any (·.1 == i) then
        .ok { st with dsetCallbacks := st.dsetCallbacks.filter (·.1 ≠ i) }
      else if st.grpCallbacks.any (·.1 == i) then
        .ok { st with grpCallbacks := st.grpCallbacks.filter (·.1 ≠ i) }
      else .ok st := by
  unfold removeCallback dictPop
  by_cases h1 : (st.dsetCallbacks.any (·.1 == i)) = true
  · simp only [ite_bool_true h1]
  · by_cases h2 : (st.grpCallbacks.any (·.1 == i)) = true
    · simp only [ite_bool_false (bool_not_true h1), ite_bool_true h2]
    · simp only [ite_bool_false (bool_not_true h1), ite_bool_false (bool_not_true h2)]

lemma filter_filter_not_contains {β : Type} (g : List (String × β)) (i : String)
    (fr : List String) :
    ((g.filter (fun kv => kv.1 ≠ i)).filter (fun kv => !fr.contains kv.1)) =
      g.filter (fun kv => !((i :: fr).contains kv.1)) := by
  rw [List.filter_filter]
  apply List.filter_congr
  intro kv _
  by_cases h : kv.1 = i
  · simp [h, List.contains_cons]
  · simp [h, List.contains_cons]

lemma runGrpCalls_ok :
    ∀ (calls : List (String × CBOutcome))
      (g : List (String × (String × CBOutcome))),
      (calls.map (·.1)).Nodup →
      (∀ c ∈ calls, c.1 ∈ g.map (·.1)) →
      (∀ c ∈ calls, c.2 ≠ .otherErr) →
      runGrpCalls g calls =
        .ok (g.filter (fun kv => !(failedIds calls).contains kv.1), calls.map (·.1)) := by
  intro calls
  induction calls with
  | nil =>
    intro g _ _ _
    simp [runGrpCalls, failedIds]
  | cons c rest ih =>
    intro g hnd hmem hb
    obtain ⟨i, f⟩ := c
    have hnd' : (rest.map (·.1)).Nodup := by
      simp only [List.map_cons] at hnd
      exact (List.nodup_cons.mp hnd).2
    have hnotin : i ∉ rest.map (·.1) := by
      simp only [List.map_cons] at hnd
      exact (List.nodup_cons.mp hnd).1
    cases f with
    | ok =>
      have hrest := ih g hnd'
        (fun c hc => hmem c (List.mem_cons_of_mem _ hc))
        (fun c hc => hb c (List.mem_cons_of_mem _ hc))
      simp only [runGrpCalls, invokeCB, hrest]
      simp [failedIds]
    | connLost =>
      have hpop := dictPop_present g i (hmem (i, .connLost) (List.mem_cons_self _ _))
      have hmem' : ∀ c ∈ rest, c.1 ∈ (g.filter (fun kv => kv.1 ≠ i)).map (·.1) := by
        intro c hc
        have h1 : c.1 ∈ g.map (·.1) := hmem c (List.mem_cons_of_mem _ hc)
        have h2 : c.1 ≠ i := by
          intro he
          exact hnotin (he ▸ List.mem_map_of_mem (·.1) hc)
        obtain ⟨kv, hkv, hkv1⟩ := List.mem_map.mp h1
        refine List.mem_map.mpr ⟨kv, List.mem_filter.mpr ⟨hkv, ?_⟩, hkv1⟩
        simp only [decide_eq_true_eq]
        rw [hkv1]
        exact h2
      have hrest := ih (g.filter (fun kv => kv.1 ≠ i)) hnd' hmem'
        (fun c hc => hb c (List.mem_cons_of_mem _ hc))
      simp only [runGrpCalls, invokeCB, hpop, hrest]
      rw [filter_filter_not_contains]
      simp [failedIds]
    | otherErr =>
      exact absurd rfl (hb (i, .otherErr) (List.mem_cons_self _ _))

lemma runDsetCalls_ok :
    ∀ (calls : List (String × CBOutcome)) (st : CBState),
      (calls.map (·.1)).Nodup →
      (∀ c ∈ calls, c.1 ∈ st.dsetCallbacks.map (·.1)) →
      (∀ c ∈ calls, c.2 ≠ .otherErr) →
      runDsetCalls st calls =
        .ok ({ st with dsetCallbacks :=
          st.dsetCallbacks.filter (fun kv => !(failedIds calls).contains kv.1) },
          calls.map (·.1)) := by
  intro calls
  induction calls with
  | nil =>
    intro st _ _ _
    simp [runDsetCalls, failedIds]
  | cons c rest ih =>
    intro st hnd hmem hb
    obtain ⟨i, f⟩ := c
    have hnd' : (rest.map (·.1)).Nodup := by
      simp only [List.map_cons] at hnd
      exact (List.nodup_cons.mp hnd).2
    have hnotin : i ∉ rest.map (·.1) := by
      simp only [List.map_cons] at hnd
      exact (List.nodup_cons.mp hnd).1
    cases f with
    | ok =>
      have hrest := ih st hnd'
        (fun c hc => hmem c (List.mem_cons_of_mem _ hc))
        (fun c hc => hb c (List.mem_cons_of_mem _ hc))
      simp only [runDsetCalls, invokeCB, hrest]
      simp [failedIds]
    | connLost =>
      have hin : i ∈ st.dsetCallbacks.map (·.1) :=
        hmem (i, .connLost) (List.mem_cons_self _ _)
      have hrm : removeCallback st i =
          .ok { st with dsetCallbacks := st.dsetCallbacks.filter (·.1 ≠ i) } := by
        rw [removeCallback_eq, ite_bool_true ((keyMem _ _).mpr hin)]
      have hmem' : ∀ c ∈ rest,
          c.1 ∈ (st.dsetCallbacks.filter (fun kv => kv.1 ≠ i)).map (·.1) := by
        intro c hc
        have h1 : c.1 ∈ st.dsetCallbacks.map (·.1) := hmem c (List.mem_cons_of_mem _ hc)
        have h2 : c.1 ≠ i := by
          intro he
          exact hnotin (he ▸ List.mem_map_of_mem (·.1) hc)
        obtain ⟨kv, hkv, hkv1⟩ := List.mem_map.mp h1
        refine List.mem_map.mpr ⟨kv, List.mem_filter.mpr ⟨hkv, ?_⟩, hkv1⟩
        simp only [decide_eq_true_eq]
        rw [hkv1]
        exact h2
      have hrest := ih { st with dsetCallbacks :=
          st.dsetCallbacks.filter (fun kv => kv.1 ≠ i) } hnd' hmem'
        (fun c hc => hb c (List.mem_cons_of_mem _ hc))
      simp only [runDsetCalls, invokeCB, hrm, hrest]
      rw [filter_filter_not_contains]
      simp [failedIds]
    | otherErr =>
      exact absurd rfl (hb (i, .otherErr) (List.mem_cons_self _ _))

/-- Claim C4: an `append` whose payload has length zero (an empty array or an
empty mapping) returns at once: it creates no node, changes no dataset,
sets no attribute and enqueues no notification. -/
theorem c4_empty_append_noop (st : FileState) (path : String) (p : Payload)
    (kwargs : List (String × PyVal)) (h : pyLen p = 0) :
    append st path p kwargs = ⟨.ok (), st, []⟩ := by
  simp [append, h]

/-- Witness for C4 at a concrete state: appending an empty dict (even with
attribute kwargs) to a file holding one dataset leaves everything alone. -/
theorem c4_empty_append_noop_witness :
    append ⟨[("/x", .plainD .dFloat [3] 5 [])], true, "t0"⟩ "/x" (.dict [])
      [("a", .vInt 1)] =
      ⟨.ok (), ⟨[("/x", .plainD .dFloat [3] 5 [])], true, "t0"⟩, []⟩ :=
  c4_empty_append_noop ⟨[("/x", .plainD .dFloat [3] 5 [])], true, "t0"⟩ "/x" (.dict [])
    [("a", .vInt 1)] rfl

/-- Claim C1 (failing input): appending a `(2, 4)`-shaped float array to an
existing `(5, 3)`-shaped float dataset raises, but only after
`dset.resize(...)` has already run, so the dataset's length grows from 5 to
7 and two fill rows remain: the length is not left unchanged and the write
is partial, contrary to the claim. -/
theorem c1_incompatible_append_grows_length :
    append ⟨[("/raw/a", .plainD .dFloat [3] 5 [("created_on", .vStr "t0")])], true, "t0"⟩
      "/raw/a" (.arr .dFloat 2 [4]) [] =
      ⟨.error .typeError,
        ⟨[("/raw/a", .plainD .dFloat [3] 7 [("created_on", .vStr "t0")])], true, "t0"⟩,
        []⟩ := by
  decide

/-- Claim C2 (counterexample): appending a dict whose field lists have
lengths 3 and 2 raises nothing; `zip` silently truncates, the write IS
attempted and a 2-row dataset is created. -/
theorem c2_unequal_lists_truncate_counterexample :
    append ⟨[], true, "t0"⟩ "/m/d"
      (.dict [("a", .vList [.sFloat 1, .sFloat 2, .sFloat 3]),
              ("b", .vList [.sFloat 4, .sFloat 5])]) [] =
      ⟨.ok (),
        ⟨[("/m/d", .compD [("a", .dFloat), ("b", .dFloat)]
            [[.vFloat 1, .vFloat 4], [.vFloat 2, .vFloat 5]]
            [("created_on", .vStr "t0")])], true, "t0"⟩,
        [⟨"/m/d", none, true⟩,
          ⟨"/m/d", some (.structA ⟨[("a", .dFloat), ("b", .dFloat)],
            [[.vFloat 1, .vFloat 4], [.vFloat 2, .vFloat 5]]⟩), false⟩]⟩ := by
  decide

/-- Claim C3 (counterexample): a successful append that creates the dataset
enqueues two notification events (one group-creation event from
`_create_dataset` and one dataset event from `append`), not exactly one. -/
theorem c3_create_enqueues_two_events_counterexample :
    (append ⟨[], true, "t0"⟩ "/m/dev1" (.dict [("x", .vFloat 1)]) []).events.length = 2 := by
  decide

/-- Claim C6 (failing input): with one dataset callback and one group
callback registered and the thread running, `stop()` clears the dataset
registry but then raises `TypeError` (the group loop calls `dict.pop()`
without a key), leaving the group subscription registered and the loop
thread not joined. -/
theorem c6_stop_raises_with_group_callbacks :
    stop ⟨[("id1", ("/d", .ok))], [("id2", ("/g", .ok))], true, false⟩ =
      ⟨.error .typeError, ⟨[], [("id2", ("/g", .ok))], true, true⟩⟩ := by
  decide

/-- Claim C2 (amended): when the field lists of a dict-of-lists append have
differing lengths, no error is raised and the write IS attempted: on a fresh
path a dataset is created whose row count is the minimum of the field list
lengths (`zip` truncation), i.e. a silently truncated batch. -/
theorem c2_unequal_lists_amended (st : FileState) (path k0 : String) (v0 : PyVal)
    (rest : List (String × PyVal))
    (hmiss : lookupNode st path = none)
    (hnd : (((k0, v0) :: rest).map (·.1)).Nodup)
    (hfl : ∀ e ∈ (k0, v0) :: rest,
      ∃ qs : List Rat, qs ≠ [] ∧ e.2 = .vList (qs.map .sFloat)) :
    (append st path (.dict ((k0, v0) :: rest)) []).res = .ok () ∧
    ∃ rows attrs,
      lookupNode (append st path (.dict ((k0, v0) :: rest)) []).st path =
        some (.compD (((k0, v0) :: rest).map (fun kv => (kv.1, .dFloat))) rows attrs) ∧
      rows.length = minNatList (((k0, v0) :: rest).map (fun kv => pyValLen kv.2)) := by
  have hconv := convert_lists_ok k0 v0 rest hnd hfl
  have hlen : pyLen (Payload.dict ((k0, v0) :: rest)) ≠ 0 := by simp [pyLen]
  have happ := append_fresh st path (.dict ((k0, v0) :: rest)) [] _ hlen hmiss hconv
  rw [happ]
  refine ⟨rfl, zipMin (((k0, v0) :: rest).map (fun kv => pyElems kv.2)),
    [("created_on", .vStr st.now)], ?_, ?_⟩
  · exact lookupNode_append_self st path _ hmiss
  · rw [zipMin_length, minLenAux_eq_minNat, List.map_map]
    have he : (List.length ∘ fun kv : String × PyVal => pyElems kv.2) =
        (fun kv : String × PyVal => pyValLen kv.2) :=
      funext (fun kv => pyElems_len kv.2)
    rw [he]

/-- Witness for the amended C2 at the concrete unequal-length input: field
`a` has 3 entries and field `b` has 2, the append succeeds and the created
dataset has 2 rows. -/
theorem c2_unequal_lists_amended_witness :
    (append ⟨[], true, "t0"⟩ "/m/d"
      (.dict [("a", .vList [.sFloat 1, .sFloat 2, .sFloat 3]),
              ("b", .vList [.sFloat 4, .sFloat 5])]) []).res = .ok () ∧
    ∃ rows attrs,
      lookupNode (append ⟨[], true, "t0"⟩ "/m/d"
        (.dict [("a", .vList [.sFloat 1, .sFloat 2, .sFloat 3]),
                ("b", .vList [.sFloat 4, .sFloat 5])]) []).st "/m/d" =
        some (.compD [("a", .dFloat), ("b", .dFloat)] rows attrs) ∧
      rows.length = 2 := by
  have h := c2_unequal_lists_amended ⟨[], true, "t0"⟩ "/m/d" "a"
    (.vList [.sFloat 1, .sFloat 2, .sFloat 3]) [("b", .vList [.sFloat 4, .sFloat 5])]
    (by decide) (by decide)
    (by
      intro e he
      rcases List.mem_cons.mp he with h | h
      · exact ⟨[1, 2, 3], by decide, by subst h; rfl⟩
      · rcases List.mem_cons.mp h with h2 | h2
        · exact ⟨[4, 5], by decide, by subst h2; rfl⟩
        · exact absurd h2 (List.not_mem_nil e))
  obtain ⟨h1, rows, attrs, h2, h3⟩ := h
  exact ⟨h1, rows, attrs, h2, by rw [h3]; decide⟩

/-- Claim C3 (amended): a successful `append` of non-empty data enqueues
exactly one dataset-kind event when it extends an existing dataset, and two
events (one group-creation event, then one dataset event) when it creates
the dataset. -/
theorem c3_events_amended (st : FileState) (path : String)
    (p : Payload) (kwargs : List (String × PyVal))
    (hq : st.hasQueue = true) (hlen : pyLen p ≠ 0) :
    (lookupNode st path = none → (append st path p kwargs).res = .ok () →
      ∃ nd, (append st path p kwargs).events =
        [⟨path, none, true⟩, ⟨path, some nd, false⟩]) ∧
    (∀ n, lookupNode st path = some n → (append st path p kwargs).res = .ok () →
      ∃ nd, (append st path p kwargs).events = [⟨path, some nd, false⟩]) := by
  have hb : (pyLen p == 0) = false := by rw [beq_eq_false_iff_ne]; exact hlen
  constructor
  · intro hmiss hok
    cases hc : convertToArray p none with
    | error e =>
      simp only [append, ite_bool_false hb, hmiss, hc] at hok
      simp at hok
    | ok nd =>
      refine ⟨nd, ?_⟩
      rw [append_fresh st path p kwargs nd hlen hmiss hc]
      simp only [ite_bool_true hq]
      rfl
  · intro n hsome hok
    cases hc : convertToArray p (some (nodeDtype n)) with
    | error e =>
      simp only [append, ite_bool_false hb, hsome, hc] at hok
      simp at hok
    | ok nd =>
      cases n with
      | plainD dt rs len attrs =>
        cases nd with
        | plain pdt pn prs =>
          by_cases hcnd : (prs == rs && dtypeCastOk pdt dt) = true
          · refine ⟨.plain pdt pn prs, ?_⟩
            simp only [append, ite_bool_false hb, hsome, hc, ite_bool_true hcnd,
              ite_bool_true hq]
          · simp only [append, ite_bool_false hb, hsome, hc,
              ite_bool_false (bool_not_true hcnd)] at hok
            simp at hok
        | structA sa =>
          simp only [append, ite_bool_false hb, hsome, hc] at hok
          simp at hok
      | compD fs rows attrs =>
        cases nd with
        | plain pdt pn prs =>
          simp only [append, ite_bool_false hb, hsome, hc] at hok
          simp at hok
        | structA sa =>
          refine ⟨.structA sa, ?_⟩
          simp only [append, ite_bool_false hb, hsome, hc, ite_bool_true hq]

/-- Witness for the amended C3: appending to a fresh path with the queue
attached enqueues the group-creation event followed by the dataset event. -/
theorem c3_events_amended_witness :
    ∃ nd, (append ⟨[], true, "t0"⟩ "/m/dev1" (.dict [("x", .vFloat 1)]) []).events =
      [⟨"/m/dev1", none, true⟩, ⟨"/m/dev1", some nd, false⟩] :=
  (c3_events_amended ⟨[], true, "t0"⟩ "/m/dev1" (.dict [("x", .vFloat 1)]) []
    rfl (by decide)).1 rfl (by decide)

/-- Claim C9: appending a dict of scalar floats to a path with no existing
node creates a compound dataset of length 1 whose record type has exactly
the dict's fields, each of float type, in key order, and the dataset carries
a `created_on` attribute stamped at creation. -/
theorem c9_scalar_dict_creates_dataset (st : FileState) (path : String)
    (k0 : String) (q0 : Rat) (rq : List (String × Rat))
    (kwargs : List (String × PyVal))
    (hmiss : lookupNode st path = none)
    (hnd : (((k0, q0) :: rq).map (·.1)).Nodup) :
    (append st path
      (.dict (((k0, q0) :: rq).map (fun kv => (kv.1, .vFloat kv.2)))) kwargs).res =
        .ok () ∧
    ∃ attrs,
      lookupNode (append st path
        (.dict (((k0, q0) :: rq).map (fun kv => (kv.1, .vFloat kv.2)))) kwargs).st path =
        some (.compD (((k0, q0) :: rq).map (fun kv => (kv.1, .dFloat)))
          [((k0, q0) :: rq).map (fun kv => .vFloat kv.2)] attrs) ∧
      attrs.any (·.1 == "created_on") = true := by
  have hndm : (((k0, PyVal.vFloat q0) ::
      rq.map (fun kv => (kv.1, PyVal.vFloat kv.2))).map (·.1)).Nodup := by
    have he : ((k0, PyVal.vFloat q0) ::
        rq.map (fun kv => (kv.1, PyVal.vFloat kv.2))).map (·.1) =
        ((k0, q0) :: rq).map (·.1) := by
      simp [List.map_map]
    rw [he]; exact hnd
  have hconv := convert_scalar_spec k0 (.vFloat q0)
    (rq.map (fun kv => (kv.1, .vFloat kv.2))) hndm rfl
  have h1 : inferScalar ((k0, PyVal.vFloat q0) ::
      rq.map (fun kv => (kv.1, PyVal.vFloat kv.2))) =
      ((k0, q0) :: rq).map (fun kv => (kv.1, DType.dFloat)) := by
    simp [inferScalar, List.map_map, pyType, PyVal.vFloat]
  have h2 : ((k0, PyVal.vFloat q0) ::
      rq.map (fun kv => (kv.1, PyVal.vFloat kv.2))).map
        (fun kv => castVal (pyType kv.2) kv.2) =
      ((k0, q0) :: rq).map (fun kv => PyVal.vFloat kv.2) := by
    simp [List.map_map, pyType, castVal, PyVal.vFloat]
  rw [h1, h2] at hconv
  have hpl : (((k0, q0) :: rq).map (fun kv => (kv.1, PyVal.vFloat kv.2))) =
      ((k0, PyVal.vFloat q0) :: rq.map (fun kv => (kv.1, PyVal.vFloat kv.2))) := by
    rfl
  have hlen : pyLen (Payload.dict (((k0, q0) :: rq).map
      (fun kv => (kv.1, PyVal.vFloat kv.2)))) ≠ 0 := by
    simp [pyLen]
  have happ := append_fresh st path
    (.dict (((k0, q0) :: rq).map (fun kv => (kv.1, .vFloat kv.2)))) kwargs _
    hlen hmiss (by rw [hpl]; exact hconv)
  rw [happ]
  refine ⟨rfl, setAttrsN [("created_on", .vStr st.now)] kwargs, ?_, ?_⟩
  · exact lookupNode_append_self st path _ hmiss
  · exact setAttrsN_keeps_key kwargs _ (by simp)

/-- Witness for C9: appending x=1.0, y=2.0 to the fresh path /m/dev1 creates
the two-float compound dataset of length 1 with created_on stamped. -/
theorem c9_scalar_dict_creates_dataset_witness :
    (append ⟨[], true, "t0"⟩ "/m/dev1"
      (.dict ([("x", (1 : Rat)), ("y", (2 : Rat))].map
        (fun kv => (kv.1, .vFloat kv.2)))) []).res = .ok () ∧
    ∃ attrs,
      lookupNode (append ⟨[], true, "t0"⟩ "/m/dev1"
        (.dict ([("x", (1 : Rat)), ("y", (2 : Rat))].map
          (fun kv => (kv.1, .vFloat kv.2)))) []).st "/m/dev1" =
        some (.compD [("x", .dFloat), ("y", .dFloat)]
          [[.vFloat 1, .vFloat 2]] attrs) ∧
      attrs.any (·.1 == "created_on") = true :=
  c9_scalar_dict_creates_dataset ⟨[], true, "t0"⟩ "/m/dev1" "x" 1 [("y", 2)] []
    (by decide) (by decide)

/-- Claim C10: `_convert_to_array` classifies a dict payload solely by the
type of its first value: when that value is not a list, the whole dict is a
single-row batch whatever the other values are (each value cast to its own
inferred dtype); when it is a list, every field is consumed as a column of
rows - a Python number among the rest makes the conversion raise (numbers
cannot be subscripted or zipped) rather than fall back to scalar handling,
with all fields non-empty float lists the batch length is the minimum list
length, and a string among the rest is consumed as a column of its
characters (truncated by the zero-width inferred string dtype), never as a
single scalar. -/
theorem c10_first_value_classifies (k0 : String) (v0 : PyVal)
    (rest : List (String × PyVal))
    (hnd : (((k0, v0) :: rest).map (·.1)).Nodup) :
    (isList v0 = false →
      convertToArray (.dict ((k0, v0) :: rest)) none =
        .ok (.structA ⟨inferScalar ((k0, v0) :: rest),
          [((k0, v0) :: rest).map (fun kv => castVal (pyType kv.2) kv.2)]⟩)) ∧
    (isList v0 = true → (∃ e ∈ rest, isNumScalar e.2 = true) →
      ∃ err, convertToArray (.dict ((k0, v0) :: rest)) none = .error err) ∧
    ((∀ e ∈ (k0, v0) :: rest, ∃ qs : List Rat, qs ≠ [] ∧ e.2 = .vList (qs.map .sFloat)) →
      ∃ sa, convertToArray (.dict ((k0, v0) :: rest)) none = .ok (.structA sa) ∧
        sa.fields = ((k0, v0) :: rest).map (fun kv => (kv.1, .dFloat)) ∧
        sa.rows.length = minNatList (((k0, v0) :: rest).map (fun kv => pyValLen kv.2))) ∧
    convertToArray (.dict [("a", .vList [.sFloat 1, .sFloat 2]), ("b", .vStr "xyz")])
      none =
      .ok (.structA ⟨[("a", .dFloat), ("b", .dStr)],
        [[.vFloat 1, .vStr ""], [.vFloat 2, .vStr ""]]⟩) := by
  refine ⟨?_, ?_, ?_, ?_⟩
  · intro hL
    exact convert_scalar_spec k0 v0 rest hnd hL
  · intro hL he
    obtain ⟨e, hmem, hsc⟩ := he
    have hscal : pyHead e.2 = .error .typeError := by
      cases hv : e.2 with
      | scalar s =>
        cases s with
        | sFloat q => rfl
        | sInt n => rfl
        | sStr str => rw [hv] at hsc; simp [isNumScalar] at hsc
      | vList xs => rw [hv] at hsc; simp [isNumScalar] at hsc
    have hfe : (fun kv : String × PyVal =>
        (pyHead kv.2).map (fun h => (kv.1, pyType h))) e = .error .typeError := by
      simp only [hscal]; rfl
    have hne : ∀ b, (fun kv : String × PyVal =>
        (pyHead kv.2).map (fun h => (kv.1, pyType h))) e ≠ .ok b := by
      intro b
      rw [hfe]
      simp
    obtain ⟨err, herr⟩ := exMapM_error_of_exists
      (fun kv : String × PyVal => (pyHead kv.2).map (fun h => (kv.1, pyType h)))
      ((k0, v0) :: rest) e (List.mem_cons_of_mem _ hmem) hne
    have herr2 : inferList ((k0, v0) :: rest) = .error err := herr
    refine ⟨err, ?_⟩
    simp only [convertToArray, inferDtype, ite_bool_true hL, herr2]
  · intro hfl
    refine ⟨⟨((k0, v0) :: rest).map (fun kv => (kv.1, .dFloat)),
      zipMin (((k0, v0) :: rest).map (fun kv => pyElems kv.2))⟩,
      convert_lists_ok k0 v0 rest hnd hfl, rfl, ?_⟩
    rw [zipMin_length, minLenAux_eq_minNat, List.map_map]
    have he : (List.length ∘ fun kv : String × PyVal => pyElems kv.2) =
        (fun kv : String × PyVal => pyValLen kv.2) :=
      funext (fun kv => pyElems_len kv.2)
    rw [he]
  · decide

/-- Witness for C10: a scalar first value keeps a later string from
switching the dict to column mode: the dict becomes a 1-row batch in which
the string, cast to its zero-width inferred dtype, is stored truncated to
the empty string. -/
theorem c10_first_value_classifies_witness :
    convertToArray (.dict [("a", .vFloat 1), ("b", .vStr "xy")]) none =
      .ok (.structA ⟨inferScalar [("a", .vFloat 1), ("b", .vStr "xy")],
        [[.vFloat 1, .vStr ""]]⟩) :=
  (c10_first_value_classifies "a" (.vFloat 1) [("b", .vStr "xy")]
    (by decide)).1 rfl

/-- Claim C5: during one notification fan-out (of either kind), every
matching subscriber is invoked in registry order; each subscriber whose
delivery fails with a connection-lost error is removed from its registry;
the other registry is untouched; and the fan-out returns normally, so no
failure reaches the writer whose append produced the notification.  The
hypotheses say the registries are Python dicts (unique ids) and that the
delivery failures occurring are connection-lost ones. -/
theorem c5_unreachable_subscriber_removed (st : CBState) (path : String)
    (data : Option NpData)
    (hndd : (st.dsetCallbacks.map (·.1)).Nodup)
    (hndg : (st.grpCallbacks.map (·.1)).Nodup)
    (hbd : ∀ e ∈ st.dsetCallbacks, e.2.2 ≠ CBOutcome.otherErr)
    (hbg : ∀ e ∈ st.grpCallbacks, e.2.2 ≠ CBOutcome.otherErr) :
    callCallback st path data false =
      .ok ({ st with dsetCallbacks := (st.dsetCallbacks.filter
          (fun kv => !(kv.2.1 == path && kv.2.2 == CBOutcome.connLost))) },
        (dsetMatching st path).map (·.1)) ∧
    callCallback st path data true =
      .ok ({ st with grpCallbacks := (st.grpCallbacks.filter
          (fun kv => !(strStartsWith path kv.2.1 && kv.2.2 == CBOutcome.connLost))) },
        (grpMatching st path).map (·.1)) := by
  constructor
  · have hnd_calls : (((dsetMatching st path).map
        (fun kv => (kv.1, kv.2.2))).map (·.1)).Nodup := by
      have hids : ((dsetMatching st path).map
          (fun kv => (kv.1, kv.2.2))).map (·.1) = (dsetMatching st path).map (·.1) := by
        simp [List.map_map, Function.comp]
      rw [hids]
      exact List.Nodup.sublist ((List.filter_sublist _).map _) hndd
    have hmem_calls : ∀ c ∈ (dsetMatching st path).map (fun kv => (kv.1, kv.2.2)),
        c.1 ∈ st.dsetCallbacks.map (·.1) := by
      intro c hc
      obtain ⟨kv, hkv, he⟩ := List.mem_map.mp hc
      have hkv' : kv ∈ st.dsetCallbacks := (List.mem_filter.mp hkv).1
      rw [← he]
      exact List.mem_map_of_mem _ hkv'
    have hb_calls : ∀ c ∈ (dsetMatching st path).map (fun kv => (kv.1, kv.2.2)),
        c.2 ≠ CBOutcome.otherErr := by
      intro c hc
      obtain ⟨kv, hkv, he⟩ := List.mem_map.mp hc
      have hkv' : kv ∈ st.dsetCallbacks := (List.mem_filter.mp hkv).1
      rw [← he]
      exact hbd kv hkv'
    have hrun := runDsetCalls_ok _ st hnd_calls hmem_calls hb_calls
    have hcc : callCallback st path data false =
        runDsetCalls st ((dsetMatching st path).map (fun kv => (kv.1, kv.2.2))) := by
      simp only [callCallback, ite_bool_false rfl]
    rw [hcc, hrun]
    have hids : ((dsetMatching st path).map (fun kv => (kv.1, kv.2.2))).map (·.1) =
        (dsetMatching st path).map (·.1) := by
      simp [List.map_map, Function.comp]
    have hfilt : st.dsetCallbacks.filter (fun kv =>
        !(failedIds ((dsetMatching st path).map
          (fun kv => (kv.1, kv.2.2)))).contains kv.1) =
        st.dsetCallbacks.filter
          (fun kv => !(kv.2.1 == path && kv.2.2 == CBOutcome.connLost)) := by
      apply List.filter_congr
      intro kv hkv
      have hiff : (failedIds ((dsetMatching st path).map
          (fun kv => (kv.1, kv.2.2)))).contains kv.1 =
          (kv.2.1 == path && kv.2.2 == CBOutcome.connLost) := by
        by_cases hmatch : (kv.2.1 == path && kv.2.2 == CBOutcome.connLost) = true
        · rw [hmatch, contains_iff_mem_str]
          have hmatch2 := hmatch
          rw [Bool.and_eq_true] at hmatch2
          obtain ⟨hm1, hm2⟩ := hmatch2
          have hkvm : kv ∈ dsetMatching st path := List.mem_filter.mpr ⟨hkv, hm1⟩
          have hc : (kv.1, kv.2.2) ∈ (dsetMatching st path).map
              (fun kv => (kv.1, kv.2.2)) := List.mem_map_of_mem _ hkvm
          have hcf : (kv.1, kv.2.2) ∈ ((dsetMatching st path).map
              (fun kv => (kv.1, kv.2.2))).filter (fun c => c.2 == .connLost) :=
            List.mem_filter.mpr ⟨hc, hm2⟩
          exact List.mem_map_of_mem _ hcf
        · rw [bool_not_true hmatch]
          cases hcont : (failedIds ((dsetMatching st path).map
              (fun kv => (kv.1, kv.2.2)))).contains kv.1 with
          | false => rfl
          | true =>
            exfalso
            have hm := (contains_iff_mem_str _ _).mp hcont
            obtain ⟨c, hcf, hc1⟩ := List.mem_map.mp hm
            obtain ⟨hcin, hconn⟩ := List.mem_filter.mp hcf
            obtain ⟨kv', hkv', hkve⟩ := List.mem_map.mp hcin
            obtain ⟨hkv'in, hkv'p⟩ := List.mem_filter.mp hkv'
            have hkey : kv'.1 = kv.1 := by rw [← hc1, ← hkve]
            have heq : kv' = kv :=
              key_eq_of_nodup st.dsetCallbacks hndd kv' hkv'in kv hkv hkey
            apply hmatch
            rw [Bool.and_eq_true]
            refine ⟨by rw [← heq]; exact hkv'p, ?_⟩
            rw [← heq]
            rw [← hkve] at hconn
            exact hconn
      rw [hiff]
    rw [hfilt, hids]
  · have hnd_calls : (((grpMatching st path).map
        (fun kv => (kv.1, kv.2.2))).map (·.1)).Nodup := by
      have hids : ((grpMatching st path).map
          (fun kv => (kv.1, kv.2.2))).map (·.1) = (grpMatching st path).map (·.1) := by
        simp [List.map_map, Function.comp]
      rw [hids]
      exact List.Nodup.sublist ((List.filter_sublist _).map _) hndg
    have hmem_calls : ∀ c ∈ (grpMatching st path).map (fun kv => (kv.1, kv.2.2)),
        c.1 ∈ st.grpCallbacks.map (·.1) := by
      intro c hc
      obtain ⟨kv, hkv, he⟩ := List.mem_map.mp hc
      have hkv' : kv ∈ st.grpCallbacks := (List.mem_filter.mp hkv).1
      rw [← he]
      exact List.mem_map_of_mem _ hkv'
    have hb_calls : ∀ c ∈ (grpMatching st path).map (fun kv => (kv.1, kv.2.2)),
        c.2 ≠ CBOutcome.otherErr := by
      intro c hc
      obtain ⟨kv, hkv, he⟩ := List.mem_map.mp hc
      have hkv' : kv ∈ st.grpCallbacks := (List.mem_filter.mp hkv).1
      rw [← he]
      exact hbg kv hkv'
    have hrun := runGrpCalls_ok _ st.grpCallbacks hnd_calls hmem_calls hb_calls
    have hcc : callCallback st path data true =
        match runGrpCalls st.grpCallbacks
            ((grpMatching st path).map (fun kv => (kv.1, kv.2.2))) with
        | .error e => .error e
        | .ok (g, inv) => .ok ({ st with grpCallbacks := g }, inv) := rfl
    rw [hcc, hrun]
    have hids : ((grpMatching st path).map (fun kv => (kv.1, kv.2.2))).map (·.1) =
        (grpMatching st path).map (·.1) := by
      simp [List.map_map, Function.comp]
    have hfilt : st.grpCallbacks.filter (fun kv =>
        !(failedIds ((grpMatching st path).map
          (fun kv => (kv.1, kv.2.2)))).contains kv.1) =
        st.grpCallbacks.filter
          (fun kv => !(strStartsWith path kv.2.1 && kv.2.2 == CBOutcome.connLost)) := by
      apply List.filter_congr
      intro kv hkv
      have hiff : (failedIds ((grpMatching st path).map
          (fun kv => (kv.1, kv.2.2)))).contains kv.1 =
          (strStartsWith path kv.2.1 && kv.2.2 == CBOutcome.connLost) := by
        by_cases hmatch : (strStartsWith path kv.2.1 && kv.2.2 == CBOutcome.connLost) = true
        · rw [hmatch, contains_iff_mem_str]
          have hmatch2 := hmatch
          rw [Bool.and_eq_true] at hmatch2
          obtain ⟨hm1, hm2⟩ := hmatch2
          have hkvm : kv ∈ grpMatching st path := List.mem_filter.mpr ⟨hkv, hm1⟩
          have hc : (kv.1, kv.2.2) ∈ (grpMatching st path).map
              (fun kv => (kv.1, kv.2.2)) := List.mem_map_of_mem _ hkvm
          have hcf : (kv.1, kv.2.2) ∈ ((grpMatching st path).map
              (fun kv => (kv.1, kv.2.2))).filter (fun c => c.2 == .connLost) :=
            List.mem_filter.mpr ⟨hc, hm2⟩
          exact List.mem_map_of_mem _ hcf
        · rw [bool_not_true hmatch]
          cases hcont : (failedIds ((grpMatching st path).map
              (fun kv => (kv.1, kv.2.2)))).contains kv.1 with
          | false => rfl
          | true =>
            exfalso
            have hm := (contains_iff_mem_str _ _).mp hcont
            obtain ⟨c, hcf, hc1⟩ := List.mem_map.mp hm
            obtain ⟨hcin, hconn⟩ := List.mem_filter.mp hcf
            obtain ⟨kv', hkv', hkve⟩ := List.mem_map.mp hcin
            obtain ⟨hkv'in, hkv'p⟩ := List.mem_filter.mp hkv'
            have hkey : kv'.1 = kv.1 := by rw [← hc1, ← hkve]
            have heq : kv' = kv :=
              key_eq_of_nodup st.grpCallbacks hndg kv' hkv'in kv hkv hkey
            apply hmatch
            rw [Bool.and_eq_true]
            refine ⟨by rw [← heq]; exact hkv'p, ?_⟩
            rw [← heq]
            rw [← hkve] at hconn
            exact hconn
      rw [hiff]
    rw [hfilt, hids]

/-- Witness for C5: with two dataset subscriptions on `/a`, the first
unreachable and the second healthy, a fan-out for `/a` invokes both in
order, removes only the unreachable one, and returns normally. -/
theorem c5_unreachable_subscriber_removed_witness :
    callCallback ⟨[("i1", ("/a", .connLost)), ("i2", ("/a", .ok))], [], true, false⟩
      "/a" none false =
      .ok (⟨[("i2", ("/a", .ok))], [], true, false⟩, ["i1", "i2"]) :=
  (c5_unreachable_subscriber_removed
    ⟨[("i1", ("/a", .connLost)), ("i2", ("/a", .ok))], [], true, false⟩
    "/a" none (by decide) (by decide) (by decide) (by decide)).1

/-- Claim C7: a group-kind subscription matches a notification exactly when
the notified path starts with the subscribed path, while a dataset-kind
subscription matches only on path equality; concretely, a group subscription
on `/a` is invoked for a creation at `/a/b/c`, and a dataset subscription on
`/a/b` is not invoked for a write to `/a/b/c`. -/
theorem c7_group_and_dataset_matching :
    (∀ (st : CBState) (path : String) (e : String × (String × CBOutcome)),
      e ∈ st.grpCallbacks →
        (e ∈ grpMatching st path ↔ strStartsWith path e.2.1 = true)) ∧
    (∀ (st : CBState) (path : String) (e : String × (String × CBOutcome)),
      e ∈ st.dsetCallbacks →
        (e ∈ dsetMatching st path ↔ e.2.1 = path)) ∧
    callCallback ⟨[], [("id1", ("/a", .ok))], true, false⟩ "/a/b/c" none true =
      .ok (⟨[], [("id1", ("/a", .ok))], true, false⟩, ["id1"]) ∧
    callCallback ⟨[("id2", ("/a/b", .ok))], [], true, false⟩ "/a/b/c" none false =
      .ok (⟨[("id2", ("/a/b", .ok))], [], true, false⟩, []) := by
  refine ⟨?_, ?_, ?_, ?_⟩
  · intro st path e he
    simp [grpMatching, List.mem_filter, he]
  · intro st path e he
    simp [dsetMatching, List.mem_filter, he]
  · decide
  · decide

/-- Witness for C7: the group subscription on `/a` is in the matching
snapshot of a notification for `/a/b/c`. -/
theorem c7_group_and_dataset_matching_witness :
    ("id1", ("/a", CBOutcome.ok)) ∈
      grpMatching ⟨[], [("id1", ("/a", .ok))], true, false⟩ "/a/b/c" :=
  (c7_group_and_dataset_matching.1 ⟨[], [("id1", ("/a", .ok))], true, false⟩
    "/a/b/c" ("id1", ("/a", .ok)) (by decide)).mpr (by decide)

/-- Claim C8: `remove_callback` returns normally for every id, including ids
never issued or already removed; an unknown id is only logged and the state
is unchanged. -/
theorem c8_remove_unknown_id_safe (st : CBState) (callid : String) :
    (∃ st2, removeCallback st callid = .ok st2) ∧
    (callid ∉ st.dsetCallbacks.map (·.1) → callid ∉ st.grpCallbacks.map (·.1) →
      removeCallback st callid = .ok st) := by
  rw [removeCallback_eq]
  constructor
  · by_cases h1 : (st.dsetCallbacks.any (·.1 == callid)) = true
    · exact ⟨_, by rw [ite_bool_true h1]⟩
    · by_cases h2 : (st.grpCallbacks.any (·.1 == callid)) = true
      · exact ⟨_, by rw [ite_bool_false (bool_not_true h1), ite_bool_true h2]⟩
      · exact ⟨st, by
          rw [ite_bool_false (bool_not_true h1), ite_bool_false (bool_not_true h2)]⟩
  · intro hd hg
    have h1 : (st.dsetCallbacks.any (·.1 == callid)) = false := by
      cases hb : st.dsetCallbacks.any (·.1 == callid) with
      | false => rfl
      | true => exact absurd ((keyMem _ _).mp hb) hd
    have h2 : (st.grpCallbacks.any (·.1 == callid)) = false := by
      cases hb : st.grpCallbacks.any (·.1 == callid) with
      | false => rfl
      | true => exact absurd ((keyMem _ _).mp hb) hg
    rw [ite_bool_false h1, ite_bool_false h2]

/-- Witness for C8: removing a never-issued id from a controller with one
dataset callback returns normally and changes nothing. -/
theorem c8_remove_unknown_id_safe_witness :
    removeCallback ⟨[("id1", ("/d", .ok))], [], true, false⟩ "zz" =
      .ok ⟨[("id1", ("/d", .ok))], [], true, false⟩ :=
  (c8_remove_unknown_id_safe ⟨[("id1", ("/d", .ok))], [], true, false⟩ "zz").2
    (by decide) (by decide)

end P5
